import Mathlib

/-!
Shallow embedding of the corporationrun backend: the relational store rows
(shared/schema.ts), the storage layer (DatabaseStorage), the Express route
handlers for documents, signatures and investors, the Qdrant retrieval
wrapper (server/services/qdrant.ts), the OpenAI generation wrapper with
p-retry backoff (server/services/gemini.ts, OpenAIService), and the Resend
email wrapper (EmailService). External calls (LLM replies, generated ids
and tokens, request metadata) are inputs; timestamps are natural numbers.
-/

deriving instance DecidableEq for Except

namespace CorpRun

/-- documentStatusEnum from shared/schema.ts. -/
inductive DocStatus
  | drafting
  | validating
  | signing
  | active
deriving DecidableEq, Repr

/-- signatureStatusEnum from shared/schema.ts (also used for Investor.status). -/
inductive SigStatus
  | pending
  | sent
  | signed
deriving DecidableEq, Repr

/-- documentTypeEnum from shared/schema.ts. -/
inductive DocType
  | nda
  | pre_founder_agreement
  | ip_assignment
  | advisor_agreement
  | terms_conditions
  | privacy_policy
  | contractor_agreement
  | safe
  | certificate_incorporation
  | bylaws
  | board_consent
deriving DecidableEq, Repr

/-- companies row (fields the routes consult). -/
structure Company where
  id : String
  userId : String
  name : String
  jurisdiction : String
deriving DecidableEq, Repr

/-- documents row (audit timestamp columns omitted; they are never read by the routes). -/
structure Document where
  id : String
  companyId : String
  type : DocType
  title : String
  status : DocStatus
  content : Option String
deriving DecidableEq, Repr

/-- document_signatures row, exactly the columns of shared/schema.ts lines
218 to 228 (the createdAt audit column omitted like the others): id,
documentId, the notNull signerId and signerType, signerEmail, status, the
nullable magicToken and signedAt. The table has no ipAddress, userAgent or
signerName column. -/
structure DocumentSignature where
  id : String
  documentId : String
  signerId : String
  signerEmail : String
  signerType : String
  status : SigStatus
  magicToken : Option String
  signedAt : Option Nat
deriving DecidableEq, Repr

/-- investors row. -/
structure Investor where
  id : String
  companyId : String
  email : String
  name : String
  amount : Option Int
  safeDocumentId : Option String
  status : SigStatus
deriving DecidableEq, Repr

/-- The relational store: the tables touched by the claims. -/
structure Store where
  companies : List Company
  documents : List Document
  signatures : List DocumentSignature
  investors : List Investor
deriving DecidableEq, Repr

/-- DatabaseStorage.getCompanyByUserId: select where userId matches, limit 1. -/
def Store.getCompanyByUserId (s : Store) (userId : String) : Option Company :=
  s.companies.find? (fun c => c.userId == userId)

/-- DatabaseStorage.getDocumentById: select where id matches, first row. -/
def Store.getDocumentById (s : Store) (id : String) : Option Document :=
  s.documents.find? (fun d => d.id == id)

/-- DatabaseStorage.getSignaturesByDocumentId: select where documentId matches. -/
def Store.getSignaturesByDocumentId (s : Store) (documentId : String) : List DocumentSignature :=
  s.signatures.filter (fun g => g.documentId == documentId)

/-- DatabaseStorage.getSignatureByToken: select where magicToken matches, first row. -/
def Store.getSignatureByToken (s : Store) (token : String) : Option DocumentSignature :=
  s.signatures.find? (fun g => g.magicToken == some token)

/-- DatabaseStorage.getInvestorById equivalent lookup (used to state what the
updateInvestor patch left in the table). -/
def Store.getInvestorById (s : Store) (id : String) : Option Investor :=
  s.investors.find? (fun i => i.id == id)

/-- A partial document update, as passed to DatabaseStorage.updateDocument.
The PATCH route forwards the request body unvalidated, so any subset of
these columns, including status, can arrive here. -/
structure DocumentUpdate where
  status : Option DocStatus := none
  title : Option String := none
  content : Option (Option String) := none
deriving DecidableEq, Repr

/-- Merge a partial update into a documents row (drizzle update ... set). -/
def applyDocumentUpdate (d : Document) (u : DocumentUpdate) : Document :=
  { d with
    status := u.status.getD d.status
    title := u.title.getD d.title
    content := u.content.getD d.content }

/-- DatabaseStorage.updateDocument: set the given columns on every row whose
id matches and return the updated row. -/
def Store.updateDocument (s : Store) (id : String) (u : DocumentUpdate) :
    Store × Option Document :=
  ({ s with documents := s.documents.map (fun d => if d.id == id then applyDocumentUpdate d u else d) },
   (s.documents.find? (fun d => d.id == id)).map (fun d => applyDocumentUpdate d u))

/-- DatabaseStorage.createDocument: insert a row. -/
def Store.createDocument (s : Store) (d : Document) : Store :=
  { s with documents := s.documents ++ [d] }

/-- The partial update object the sign route passes to
DatabaseStorage.updateSignature: status and signedAt are real columns of
document_signatures; the ipAddress and userAgent keys match no column. -/
structure SignatureUpdate where
  status : Option SigStatus := none
  signedAt : Option (Option Nat) := none
  ipAddress : Option (Option String) := none
  userAgent : Option (Option String) := none
deriving DecidableEq, Repr

/-- Merge a partial update into a document_signatures row: drizzle builds
the SET clause from the table columns, so only status and signedAt are
written; the ipAddress and userAgent keys have no matching column and are
silently dropped, storing nothing. -/
def applySignatureUpdate (g : DocumentSignature) (u : SignatureUpdate) : DocumentSignature :=
  { g with
    status := u.status.getD g.status
    signedAt := u.signedAt.getD g.signedAt }

/-- DatabaseStorage.updateSignature. -/
def Store.updateSignature (s : Store) (id : String) (u : SignatureUpdate) :
    Store × Option DocumentSignature :=
  ({ s with signatures := s.signatures.map (fun g => if g.id == id then applySignatureUpdate g u else g) },
   (s.signatures.find? (fun g => g.id == id)).map (fun g => applySignatureUpdate g u))

/-- The object literal the send-for-signature route passes to
DatabaseStorage.createSignature: it carries a signerName key that matches
no column, and supplies no signerId or signerType, so those fields are
none here; insertDocumentSignatureSchema.parse is never called on it. -/
structure SignatureInsertBody where
  documentId : String
  signerEmail : String
  signerName : Option String := none
  signerId : Option String := none
  signerType : Option String := none
  magicToken : Option String := none
  status : SigStatus
deriving DecidableEq, Repr

/-- The Postgres error message raised when an insert leaves the notNull
signer_id (or signer_type) column null. -/
def signerNotNullViolation : String :=
  "null value in column signer_id of relation document_signatures violates not-null constraint"

/-- DatabaseStorage.createSignature: drizzle maps the body over the table
columns (the signerName key is ignored) and emits DEFAULT for the missing
signer_id and signer_type; both are notNull without a default, so when the
body does not supply them Postgres rejects the insert and the call throws.
The database-generated id of the new row is the first argument. -/
def Store.createSignature (s : Store) (id : String) (b : SignatureInsertBody) :
    Except String Store :=
  match b.signerId, b.signerType with
  | some sid, some stype =>
    Except.ok { s with signatures := s.signatures ++
      [{ id := id
         documentId := b.documentId
         signerId := sid
         signerEmail := b.signerEmail
         signerType := stype
         status := b.status
         magicToken := b.magicToken
         signedAt := none }] }
  | _, _ => Except.error signerNotNullViolation

/-- A partial investor update, as passed to DatabaseStorage.updateInvestor. -/
structure InvestorUpdate where
  safeDocumentId : Option (Option String) := none
  status : Option SigStatus := none
deriving DecidableEq, Repr

/-- Merge a partial update into an investors row. -/
def applyInvestorUpdate (i : Investor) (u : InvestorUpdate) : Investor :=
  { i with
    safeDocumentId := u.safeDocumentId.getD i.safeDocumentId
    status := u.status.getD i.status }

/-- DatabaseStorage.updateInvestor. -/
def Store.updateInvestor (s : Store) (id : String) (u : InvestorUpdate) :
    Store × Option Investor :=
  ({ s with investors := s.investors.map (fun i => if i.id == id then applyInvestorUpdate i u else i) },
   (s.investors.find? (fun i => i.id == id)).map (fun i => applyInvestorUpdate i u))

/-- DatabaseStorage.createInvestor: insert a row. -/
def Store.createInvestor (s : Store) (i : Investor) : Store :=
  { s with investors := s.investors ++ [i] }

/-- The authenticated user attached to a request by requireAuth. -/
structure AuthUser where
  id : String
deriving DecidableEq, Repr

/-- Error responses produced by the route handlers under study: 404 bodies
(missing company, document or signature), 400 for a missing signers array,
400 for signing an already signed signature, and the catch-all 500 a
handler returns when a storage call throws. -/
inductive RouteError
  | notFound
  | badRequest
  | alreadySigned
  | serverError
deriving DecidableEq, Repr

/-- Request metadata captured at signing time: the clock value for new Date,
req.ip and the user-agent header. -/
structure SignMeta where
  now : Nat
  ip : Option String
  userAgent : Option String
deriving DecidableEq, Repr

/-- The partial update object the sign route builds: status signed plus
timestamp, IP and user-agent from the request; the storage layer applies
only the status and signedAt keys, the columns that exist. -/
def signUpdate (meta : SignMeta) : SignatureUpdate :=
  { status := some SigStatus.signed
    signedAt := some (some meta.now)
    ipAddress := some meta.ip
    userAgent := some meta.userAgent }

/-- POST /api/signatures/:token/sign: look up the signature by magic token;
404 when absent; 400 when already signed; otherwise mark it signed with
timestamp, IP and user-agent, then re-read every signature of the document
and set the document status to active when all are signed. -/
def signByToken (s : Store) (token : String) (meta : SignMeta) :
    Store × Except RouteError DocumentSignature :=
  match s.getSignatureByToken token with
  | none => (s, Except.error RouteError.notFound)
  | some sig =>
    if sig.status = SigStatus.signed then
      (s, Except.error RouteError.alreadySigned)
    else
      let s1 := (s.updateSignature sig.id (signUpdate meta)).1
      let allSigs := s1.getSignaturesByDocumentId sig.documentId
      let allSigned := allSigs.all (fun g => g.status == SigStatus.signed)
      let s2 :=
        if allSigned then
          (s1.updateDocument sig.documentId { status := some DocStatus.active }).1
        else s1
      (s2, Except.ok (applySignatureUpdate sig (signUpdate meta)))

/-- GET /api/documents/:id: fetch by id; no ownership check on the document. -/
def getDocumentRoute (s : Store) (_u : AuthUser) (id : String) :
    Except RouteError Document :=
  match s.getDocumentById id with
  | none => Except.error RouteError.notFound
  | some d => Except.ok d

/-- GET /api/documents: list the documents of the company owned by the caller. -/
def getDocumentsRoute (s : Store) (u : AuthUser) :
    Except RouteError (List Document) :=
  match s.getCompanyByUserId u.id with
  | none => Except.error RouteError.notFound
  | some c => Except.ok (s.documents.filter (fun d => d.companyId == c.id))

/-- GET /api/documents/:id/signatures: list signatures of the document; no
ownership check. -/
def getSignaturesRoute (s : Store) (_u : AuthUser) (id : String) :
    Except RouteError (List DocumentSignature) :=
  Except.ok (s.getSignaturesByDocumentId id)

/-- PATCH /api/documents/:id: forward the request body to
storage.updateDocument with no status guard and no ownership check. The
Qdrant re-index side effect does not touch the relational store and is
modelled separately. -/
def updateDocumentRoute (s : Store) (_u : AuthUser) (id : String)
    (body : DocumentUpdate) : Store × Option Document :=
  s.updateDocument id body

/-- Fresh-value environment for POST /api/documents: the database-generated
document id. -/
structure DocEnv where
  freshDocId : String
deriving DecidableEq, Repr

/-- Body of POST /api/documents after insertDocumentSchema.parse: the route
forces companyId from the caller and status drafting. -/
structure DocumentInput where
  type : DocType
  title : String
  content : Option String
deriving DecidableEq, Repr

/-- POST /api/documents: resolve the caller company, insert a document at
status drafting (Qdrant indexing modelled separately). -/
def createDocumentRoute (s : Store) (u : AuthUser) (input : DocumentInput)
    (env : DocEnv) : Store × Except RouteError Document :=
  match s.getCompanyByUserId u.id with
  | none => (s, Except.error RouteError.notFound)
  | some c =>
    let d : Document :=
      { id := env.freshDocId
        companyId := c.id
        type := input.type
        title := input.title
        status := DocStatus.drafting
        content := input.content }
    (s.createDocument d, Except.ok d)

/-- Validation result shape returned by OpenAIService.validateDocument. -/
structure ValidationResult where
  valid : Bool
  errors : List String
  warnings : List String
deriving DecidableEq, Repr

/-- OpenAIService.validateDocument: the model reply goes through JSON.parse;
the parameter parsed is the outcome of that parse (none when the reply is
not valid JSON). On parse failure the catch branch returns valid true with
a single warning. -/
def validateDocumentService (_documentType : DocType) (_content : String)
    (parsed : Option ValidationResult) : ValidationResult :=
  match parsed with
  | some v => v
  | none =>
    { valid := true
      errors := []
      warnings := ["Could not parse validation response"] }

/-- POST /api/documents/:id/validate: fetch the document (no ownership
check), run the AI validation, and when the result is valid set the
document status to validating regardless of its current status. -/
def validateDocumentRoute (s : Store) (_u : AuthUser) (id : String)
    (parsed : Option ValidationResult) :
    Store × Except RouteError ValidationResult :=
  match s.getDocumentById id with
  | none => (s, Except.error RouteError.notFound)
  | some doc =>
    let validation := validateDocumentService doc.type (doc.content.getD "") parsed
    let s1 :=
      if validation.valid then
        (s.updateDocument doc.id { status := some DocStatus.validating }).1
      else s
    (s1, Except.ok validation)

/-- One entry of the signers array in the send-for-signature body. -/
structure Signer where
  email : String
  name : String
deriving DecidableEq, Repr

/-- Fresh-value environment for send-for-signature: the database-generated
signature id and the nanoid magic token for the k-th signer. -/
structure SigEnv where
  freshSigId : Nat → String
  freshToken : Nat → String

/-- A signature-request email as handed to the Resend client. -/
structure EmailRecord where
  recipient : String
  recipientName : String
  documentTitle : String
  magicToken : String
deriving DecidableEq, Repr

/-- EmailService.sendSignatureRequest: when the Resend client is not
configured the method logs a warning and returns without sending. -/
def sendSignatureRequest (emailConfigured : Bool) (recipient recipientName title token : String) :
    List EmailRecord :=
  if emailConfigured then [⟨recipient, recipientName, title, token⟩] else []

/-- The insert body the route builds for one signer: documentId,
signerEmail, signerName, magicToken and status sent, with no signerId and
no signerType. -/
def mkSignatureBody (doc : Document) (sg : Signer) (tok : String) : SignatureInsertBody :=
  { documentId := doc.id
    signerEmail := sg.email
    signerName := some sg.name
    magicToken := some tok
    status := SigStatus.sent }

/-- The loop body of send-for-signature: for each signer attempt the
signature insert and, when it succeeds, send the notification email; the
first throwing insert aborts the loop (rows and emails of earlier
iterations stay, there is no transaction). Returns the store, the emails
sent, and the error message of the throwing insert when one threw. -/
def createSignatureLoop (s : Store) (doc : Document) (signers : List Signer)
    (env : SigEnv) (emailConfigured : Bool) (k : Nat) :
    Store × List EmailRecord × Option String :=
  match signers with
  | [] => (s, [], none)
  | sg :: rest =>
    match s.createSignature (env.freshSigId k) (mkSignatureBody doc sg (env.freshToken k)) with
    | Except.error e => (s, [], some e)
    | Except.ok s1 =>
      let mail := sendSignatureRequest emailConfigured sg.email sg.name doc.title (env.freshToken k)
      let (s2, mails, err) := createSignatureLoop s1 doc rest env emailConfigured (k + 1)
      (s2, mail ++ mails, err)

/-- POST /api/documents/:id/send-for-signature: fetch the document (no
ownership check), require a signers array, then for each signer insert a
signature and email a magic link, and finally set the document status to
signing; a throwing insert is caught by the handler, which responds 500
with the loop state persisted as-is. -/
def sendForSignatureRoute (s : Store) (_u : AuthUser) (id : String)
    (signers : Option (List Signer)) (env : SigEnv) (emailConfigured : Bool) :
    Store × List EmailRecord × Except RouteError String :=
  match s.getDocumentById id with
  | none => (s, [], Except.error RouteError.notFound)
  | some doc =>
    match signers with
    | none => (s, [], Except.error RouteError.badRequest)
    | some l =>
      match createSignatureLoop s doc l env emailConfigured 0 with
      | (s1, mails, some _) => (s1, mails, Except.error RouteError.serverError)
      | (s1, mails, none) =>
        let s2 := (s1.updateDocument doc.id { status := some DocStatus.signing }).1
        (s2, mails, Except.ok "Signature requests sent successfully")

/-- Body of POST /api/investors after insertInvestorSchema.parse: the route
forces companyId from the caller and status pending. -/
structure InvestorInput where
  email : String
  name : String
  amount : Option Int
deriving DecidableEq, Repr

/-- Fresh-value environment for POST /api/investors: database-generated ids
and the SAFE text drafted by the generation service. -/
structure InvestorEnv where
  freshInvestorId : String
  freshDocId : String
  safeContent : String
deriving DecidableEq, Repr

/-- POST /api/investors: resolve the caller company, insert the investor at
status pending, draft a SAFE, insert it as a document of type safe at
status drafting, patch the investor row with the SAFE id, and respond with
the investor object obtained from the initial insert. -/
def addInvestorRoute (s : Store) (u : AuthUser) (input : InvestorInput)
    (env : InvestorEnv) : Store × Except RouteError Investor :=
  match s.getCompanyByUserId u.id with
  | none => (s, Except.error RouteError.notFound)
  | some company =>
    let investor : Investor :=
      { id := env.freshInvestorId
        companyId := company.id
        email := input.email
        name := input.name
        amount := input.amount
        safeDocumentId := none
        status := SigStatus.pending }
    let s1 := s.createInvestor investor
    let safeDoc : Document :=
      { id := env.freshDocId
        companyId := company.id
        type := DocType.safe
        title := "SAFE - " ++ investor.name
        status := DocStatus.drafting
        content := some env.safeContent }
    let s2 := s1.createDocument safeDoc
    let s3 := (s2.updateInvestor investor.id { safeDocumentId := some (some safeDoc.id) }).1
    (s3, Except.ok investor)

/-- A point of the legal_documents Qdrant collection: id plus the payload
fields the search path reads (company_id and content; further metadata
omitted). -/
structure QdrantPoint where
  pointId : String
  company_id : String
  content : String
deriving DecidableEq, Repr

/-- The Qdrant collection state. -/
structure QdrantIndex where
  points : List QdrantPoint
deriving DecidableEq, Repr

/-- QdrantService.storeDocument: upsert the point doc_ plus document id with
payload company_id set to the storing company; a no-op mock when the
service is unavailable. -/
def qdrantStoreDocument (available : Bool) (idx : QdrantIndex)
    (companyId documentId content : String) : QdrantIndex :=
  if available then
    let p : QdrantPoint := ⟨"doc_" ++ documentId, companyId, content⟩
    if (idx.points.filter (fun q => q.pointId == p.pointId)).isEmpty then
      ⟨idx.points ++ [p]⟩
    else
      ⟨idx.points.map (fun q => if q.pointId == p.pointId then p else q)⟩
  else idx

/-- QdrantService.search: embed the query, then ask Qdrant for the nearest
points under the mandatory filter must company_id = companyId, truncated
to the limit. Vector ranking happens inside the filtered set and is
modelled by the scoring order given; the filter is applied server side
before the limit. Unavailable service returns the empty list. -/
def qdrantSearch (available : Bool) (idx : QdrantIndex) (companyId : String)
    (_query : String) (limit : Nat) (score : QdrantPoint → Nat) : List QdrantPoint :=
  if available then
    ((idx.points.filter (fun p => p.company_id == companyId)).mergeSort
      (fun a b => score b ≤ score a)).take limit
  else []

/-- The p-retry options passed at every generation call site. -/
structure RetryOptions where
  retries : Nat
  minTimeout : Nat
  maxTimeout : Nat
  factor : Nat
deriving DecidableEq, Repr

/-- The options literal used in gemini.ts: retries 7, minTimeout 2000,
maxTimeout 128000, factor 2. -/
def genRetryOptions : RetryOptions := ⟨7, 2000, 128000, 2⟩

/-- listPrefixTest pat l is true when pat is an initial segment of l
(String.prototype.includes support). -/
def listPrefixTest : List Char → List Char → Bool
  | [], _ => true
  | _ :: _, [] => false
  | a :: as, b :: bs => a == b && listPrefixTest as bs

/-- listContains pat l is true when pat occurs contiguously in l
(String.prototype.includes on char lists). -/
def listContains (pat : List Char) : List Char → Bool
  | [] => listPrefixTest pat []
  | c :: rest => listPrefixTest pat (c :: rest) || listContains pat rest

/-- isRateLimitError from gemini.ts: the message contains 429 or
RATELIMIT_EXCEEDED, or its lower-casing contains quota or rate limit. -/
def isRateLimitError (msg : String) : Bool :=
  let cs := msg.data
  let lower := cs.map Char.toLower
  listContains "429".data cs ||
  listContains "RATELIMIT_EXCEEDED".data cs ||
  listContains "quota".data lower ||
  listContains "rate limit".data lower

/-- Observable outcome of one pRetry run: how many times the wrapped
operation was invoked, the backoff delays slept between invocations, and
the final result. -/
structure RetryTrace where
  attemptsMade : Nat
  delays : List Nat
  result : Except String String
deriving Repr

/-- Backoff delay after the n-th failed attempt (0-based), per the retry
library: min of minTimeout times factor to the n and maxTimeout. -/
def retryDelay (o : RetryOptions) (n : Nat) : Nat :=
  min (o.minTimeout * o.factor ^ n) o.maxTimeout

/-- One pRetry execution: the operation environment gives the outcome of
each invocation (message of the thrown error, or the reply). The call
sites rethrow rate-limit errors, which pRetry retries while retries
remain, and wrap every other error in AbortError, which stops pRetry at
once. attemptIdx is the 0-based index of the current invocation and the
second argument the number of retries still allowed. -/
def pRetryGo (o : RetryOptions) (op : Nat → Except String String) (attemptIdx : Nat) :
    Nat → RetryTrace
  | 0 =>
    match op attemptIdx with
    | Except.ok v => ⟨1, [], Except.ok v⟩
    | Except.error e => ⟨1, [], Except.error e⟩
  | remaining + 1 =>
    match op attemptIdx with
    | Except.ok v => ⟨1, [], Except.ok v⟩
    | Except.error e =>
      if isRateLimitError e then
        let t := pRetryGo o op (attemptIdx + 1) remaining
        ⟨t.attemptsMade + 1, retryDelay o attemptIdx :: t.delays, t.result⟩
      else ⟨1, [], Except.error e⟩

/-- pRetry as called by OpenAIService.generateResponse: start at attempt 0
with the configured retry budget. -/
def pRetryRun (o : RetryOptions) (op : Nat → Except String String) : RetryTrace :=
  pRetryGo o op 0 o.retries

/-- OpenAIService.generateResponse: the unconfigured client short-circuits
to a fallback string without calling the model; otherwise the call runs
under pRetry with the gemini.ts options. -/
def generateResponse (configured : Bool) (op : Nat → Except String String) : RetryTrace :=
  if configured then pRetryRun genRetryOptions op
  else ⟨0, [], Except.ok "The AI service is not configured. Please contact support."⟩

/-- The seven backoff delays of the gemini.ts retry options: doubling from
2000 ms and capped at 128000 ms. -/
def genDelays : List Nat := [2000, 4000, 8000, 16000, 32000, 64000, 128000]

/-- find? commutes with mapping a function that does not change the
predicate. -/
theorem find?_map_of_pred_eq {α : Type} (l : List α) (q : α → Bool) (g : α → α)
    (h : ∀ x, q (g x) = q x) : (l.map g).find? q = (l.find? q).map g := by
  induction l with
  | nil => rfl
  | cons x xs ih =>
    by_cases hq : q x = true
    · rw [List.map_cons, List.find?_cons_of_pos _ ((h x).trans hq),
        List.find?_cons_of_pos _ hq, Option.map_some']
    · have hq' : q x = false := by simpa using hq
      rw [List.map_cons, List.find?_cons_of_neg _ (by rw [h x, hq']; simp),
        List.find?_cons_of_neg _ (by rw [hq']; simp), ih]

/-- An update keyed on the document id leaves document ids unchanged. -/
theorem updateDocumentKeep_id (id : String) (u : DocumentUpdate) (x : Document) :
    (if x.id == id then applyDocumentUpdate x u else x).id = x.id := by
  by_cases hx : x.id == id <;> simp [hx, applyDocumentUpdate]

/-- Reading a document after updateDocument: the first row with the looked
up id is the possibly updated first row of the original table. -/
theorem getDocumentById_updateDocument (s : Store) (id docId : String) (u : DocumentUpdate) :
    ((s.updateDocument id u).1.getDocumentById docId)
      = (s.getDocumentById docId).map
          (fun d => if d.id == id then applyDocumentUpdate d u else d) := by
  unfold Store.updateDocument Store.getDocumentById
  exact find?_map_of_pred_eq _ _ _ (fun x => by rw [updateDocumentKeep_id])

/-- updateDocument does not touch the signatures table. -/
theorem updateDocument_signatures (s : Store) (id : String) (u : DocumentUpdate) :
    (s.updateDocument id u).1.signatures = s.signatures := rfl

/-- updateSignature does not touch the documents table. -/
theorem updateSignature_documents (s : Store) (id : String) (u : SignatureUpdate) :
    (s.updateSignature id u).1.documents = s.documents := rfl

/-- An update keyed on the signature id leaves the magic token unchanged. -/
theorem updateSignatureKeep_token (id : String) (u : SignatureUpdate) (x : DocumentSignature) :
    (if x.id == id then applySignatureUpdate x u else x).magicToken = x.magicToken := by
  by_cases hx : x.id == id <;> simp [hx, applySignatureUpdate]

/-- Reading a signature by token after updateSignature: the first row with
the token is the possibly updated first matching row of the original. -/
theorem getSignatureByToken_updateSignature (s : Store) (id token : String) (u : SignatureUpdate) :
    ((s.updateSignature id u).1.getSignatureByToken token)
      = (s.getSignatureByToken token).map
          (fun g => if g.id == id then applySignatureUpdate g u else g) := by
  unfold Store.updateSignature Store.getSignatureByToken
  exact find?_map_of_pred_eq _ _ _ (fun x => by rw [updateSignatureKeep_token])

/-- A found row satisfies the search predicate: the id looked up is the id
of the returned document. -/
theorem getDocumentById_id {s : Store} {id : String} {d : Document}
    (h : s.getDocumentById id = some d) : d.id = id := by
  have := List.find?_some h
  simpa using this

/-- The signature found by token carries that token. -/
theorem getSignatureByToken_token {s : Store} {token : String} {g : DocumentSignature}
    (h : s.getSignatureByToken token = some g) : g.magicToken = some token := by
  have := List.find?_some h
  simpa using this

/-- Reading a document in a store with one extra appended document: the
original first match wins. -/
theorem getDocumentById_createDocument (s : Store) (d : Document) (docId : String) :
    (s.createDocument d).getDocumentById docId
      = ((s.getDocumentById docId).or (if d.id == docId then some d else none)) := by
  unfold Store.createDocument Store.getDocumentById
  rw [List.find?_append]
  cases hd : d.id == docId <;> simp [List.find?, hd]

/-- An empty signers list makes no insert and sends nothing. -/
theorem createSignatureLoop_nil (s : Store) (doc : Document) (env : SigEnv)
    (cfg : Bool) (k : Nat) :
    createSignatureLoop s doc [] env cfg k = (s, [], none) := rfl

/-- With at least one signer the loop throws on its first insert: the body
the route builds carries no signerId or signerType, so Postgres raises the
not-null violation before any row is stored or any email sent. -/
theorem createSignatureLoop_cons (s : Store) (doc : Document) (sg : Signer)
    (rest : List Signer) (env : SigEnv) (cfg : Bool) (k : Nat) :
    createSignatureLoop s doc (sg :: rest) env cfg k
      = (s, [], some signerNotNullViolation) := rfl

/-- On the success path the sign route responds with the updated row. -/
theorem signByToken_ok (s : Store) (token : String) (meta : SignMeta)
    (sig : DocumentSignature) (hfind : s.getSignatureByToken token = some sig)
    (hstat : ¬sig.status = SigStatus.signed) :
    (signByToken s token meta).2 = Except.ok (applySignatureUpdate sig (signUpdate meta)) := by
  unfold signByToken
  rw [hfind]
  simp only [if_neg hstat]

/-- On the success path the resulting store is the signature update,
followed by the document activation exactly when the re-read signature set
is fully signed. -/
theorem signByToken_store (s : Store) (token : String) (meta : SignMeta)
    (sig : DocumentSignature) (hfind : s.getSignatureByToken token = some sig)
    (hstat : ¬sig.status = SigStatus.signed) :
    (signByToken s token meta).1 =
      if ((s.updateSignature sig.id (signUpdate meta)).1.getSignaturesByDocumentId
            sig.documentId).all (fun g => g.status == SigStatus.signed)
      then ((s.updateSignature sig.id (signUpdate meta)).1.updateDocument
              sig.documentId { status := some DocStatus.active }).1
      else (s.updateSignature sig.id (signUpdate meta)).1 := by
  unfold signByToken
  rw [hfind]
  simp only [if_neg hstat]

/-- The store returned by a successful sign holds the updated row as the
first match for the same token. -/
theorem signByToken_stored_row (s : Store) (token : String) (meta : SignMeta)
    (sig : DocumentSignature) (hfind : s.getSignatureByToken token = some sig)
    (hstat : ¬sig.status = SigStatus.signed) :
    (signByToken s token meta).1.getSignatureByToken token
      = some (applySignatureUpdate sig (signUpdate meta)) := by
  rw [signByToken_store s token meta sig hfind hstat]
  have h1 : (s.updateSignature sig.id (signUpdate meta)).1.getSignatureByToken token
      = some (applySignatureUpdate sig (signUpdate meta)) := by
    rw [getSignatureByToken_updateSignature, hfind]
    simp
  by_cases hall : ((s.updateSignature sig.id (signUpdate meta)).1.getSignaturesByDocumentId
      sig.documentId).all (fun g => g.status == SigStatus.signed) = true
  · rw [if_pos hall]
    have hsig : ((s.updateSignature sig.id (signUpdate meta)).1.updateDocument
        sig.documentId { status := some DocStatus.active }).1.signatures
        = (s.updateSignature sig.id (signUpdate meta)).1.signatures :=
      updateDocument_signatures _ _ _
    unfold Store.getSignatureByToken at h1 ⊢
    rw [hsig]
    exact h1
  · rw [if_neg hall]
    exact h1

/-- Concrete fixture: a company owned by user u1. -/
def wCompany : Company := ⟨"c1", "u1", "Acme", "delaware"⟩

/-- Concrete fixture: a drafting document of company c1 with two signers. -/
def wDocDraft : Document := ⟨"d1", "c1", DocType.nda, "Mutual NDA", DocStatus.drafting, some "nda text"⟩

/-- Concrete fixture: an active document of company c1. -/
def wDocActive : Document := ⟨"d2", "c1", DocType.bylaws, "Bylaws", DocStatus.active, some "bylaws text"⟩

/-- Concrete fixture: a pending-sent signature of document d1. -/
def wSigSent : DocumentSignature := ⟨"g1", "d1", "f1", "ann@x.com", "founder", SigStatus.sent, some "tok1", none⟩

/-- Concrete fixture: an already signed signature of document d1. -/
def wSigSigned : DocumentSignature := ⟨"g2", "d1", "f2", "bob@x.com", "founder", SigStatus.signed, some "tok2", some 5⟩

/-- Concrete fixture store. -/
def wStore : Store := ⟨[wCompany], [wDocDraft, wDocActive], [wSigSent, wSigSigned], []⟩

/-- Concrete request metadata for a first sign call. -/
def wMeta : SignMeta := ⟨42, some "1.2.3.4", some "agent"⟩

/-- Concrete request metadata for a second sign call. -/
def wMeta2 : SignMeta := ⟨43, some "5.6.7.8", some "agent2"⟩

/-- C1 counterexample: the claim that no defined operation sets a document
active while some signature is unsigned fails: PATCH /api/documents/:id
forwards an unvalidated body, so updating with status active succeeds on a
drafting document whose only listed signature is still sent. -/
theorem C1_counterexample :
    (((updateDocumentRoute ⟨[], [wDocDraft], [wSigSent], []⟩ ⟨"u1"⟩ "d1"
          { status := some DocStatus.active }).1.getDocumentById "d1").map Document.status
        = some DocStatus.active)
    ∧ (((updateDocumentRoute ⟨[], [wDocDraft], [wSigSent], []⟩ ⟨"u1"⟩ "d1"
          { status := some DocStatus.active }).1.getSignaturesByDocumentId "d1").all
            (fun g => g.status == SigStatus.signed) = false) := by decide

/-- C1 amended: restricted to signByToken the biconditional holds: a
successful sign sets the document active exactly when the re-read
signature set of that document is fully signed, and otherwise leaves every
document untouched; so signing the last pending signer, in any order,
activates the document, and signByToken never activates while a signature
remains unsigned. (updateDocument can still set active directly, per the
counterexample.) -/
theorem C1_activation (s : Store) (token : String) (meta : SignMeta)
    (sig : DocumentSignature) (hfind : s.getSignatureByToken token = some sig)
    (hstat : ¬sig.status = SigStatus.signed) :
    (((signByToken s token meta).1.getSignaturesByDocumentId sig.documentId).all
          (fun g => g.status == SigStatus.signed) = true
        → (signByToken s token meta).1.getDocumentById sig.documentId
            = (s.getDocumentById sig.documentId).map
                (fun d => { d with status := DocStatus.active }))
    ∧ (((signByToken s token meta).1.getSignaturesByDocumentId sig.documentId).all
          (fun g => g.status == SigStatus.signed) = false
        → (signByToken s token meta).1.documents = s.documents) := by
  rw [signByToken_store s token meta sig hfind hstat]
  by_cases hall : ((s.updateSignature sig.id (signUpdate meta)).1.getSignaturesByDocumentId
      sig.documentId).all (fun g => g.status == SigStatus.signed) = true
  · rw [if_pos hall]
    have hsigs : ((s.updateSignature sig.id (signUpdate meta)).1.updateDocument
        sig.documentId { status := some DocStatus.active }).1.getSignaturesByDocumentId
          sig.documentId
        = (s.updateSignature sig.id (signUpdate meta)).1.getSignaturesByDocumentId
            sig.documentId := by
      unfold Store.getSignaturesByDocumentId
      rw [updateDocument_signatures]
    constructor
    · intro _
      rw [getDocumentById_updateDocument]
      have hdocs : (s.updateSignature sig.id (signUpdate meta)).1.getDocumentById
          sig.documentId = s.getDocumentById sig.documentId := by
        unfold Store.getDocumentById
        rw [updateSignature_documents]
      rw [hdocs]
      cases hd : s.getDocumentById sig.documentId with
      | none => rfl
      | some d =>
        have hid : d.id = sig.documentId := getDocumentById_id hd
        simp [hid, applyDocumentUpdate]
    · intro hfalse
      rw [hsigs, hall] at hfalse
      exact absurd hfalse (by simp)
  · rw [if_neg hall]
    refine ⟨fun htrue => absurd htrue hall, fun _ => ?_⟩
    rw [updateSignature_documents]

/-- C1 witness: on the fixture store, signing the last pending signature of
document d1 (its other signature is already signed) flips d1 to active. -/
theorem C1_witness :
    (signByToken wStore "tok1" wMeta).1.getDocumentById "d1"
      = (wStore.getDocumentById "d1").map (fun d => { d with status := DocStatus.active }) :=
  (C1_activation wStore "tok1" wMeta wSigSent (by decide) (by decide)).1 (by decide)

/-- The sign route answers not-found exactly when no signature carries the
token. -/
theorem signByToken_err_notFound_iff (s : Store) (token : String) (meta : SignMeta) :
    (signByToken s token meta).2 = Except.error RouteError.notFound
      ↔ s.getSignatureByToken token = none := by
  constructor
  · intro h
    by_contra hne
    rcases Option.ne_none_iff_exists'.mp hne with ⟨sig, hsig⟩
    by_cases hst : sig.status = SigStatus.signed
    · have hv : (signByToken s token meta).2 = Except.error RouteError.alreadySigned := by
        simp [signByToken, hsig, hst]
      rw [hv] at h
      simp at h
    · have hv := signByToken_ok s token meta sig hsig hst
      rw [hv] at h
      simp at h
  · intro h
    simp [signByToken, h]

theorem signByToken_err_already_iff (s : Store) (token : String) (meta : SignMeta) :
    (signByToken s token meta).2 = Except.error RouteError.alreadySigned
      ↔ ∃ sig, s.getSignatureByToken token = some sig ∧ sig.status = SigStatus.signed := by
  constructor
  · intro h
    cases hfind : s.getSignatureByToken token with
    | none =>
      rw [show (signByToken s token meta).2 = Except.error RouteError.notFound by
        simp [signByToken, hfind]] at h
      simp at h
    | some sig =>
      by_cases hst : sig.status = SigStatus.signed
      · exact ⟨sig, rfl, hst⟩
      · rw [signByToken_ok s token meta sig hfind hst] at h
        simp at h
  · rintro ⟨sig, hsig, hst⟩
    simp [signByToken, hsig, hst]

theorem signByToken_err_state (s : Store) (token : String) (meta : SignMeta)
    (e : RouteError) (h : (signByToken s token meta).2 = Except.error e) :
    (signByToken s token meta).1 = s
      ∧ (e = RouteError.notFound ∨ e = RouteError.alreadySigned) := by
  cases hfind : s.getSignatureByToken token with
  | none =>
    refine ⟨by simp [signByToken, hfind], Or.inl ?_⟩
    have hv : (signByToken s token meta).2 = Except.error RouteError.notFound := by
      simp [signByToken, hfind]
    rw [hv] at h
    injection h with h2
    exact h2.symm
  | some sig =>
    by_cases hst : sig.status = SigStatus.signed
    · refine ⟨by simp [signByToken, hfind, hst], Or.inr ?_⟩
      have hv : (signByToken s token meta).2 = Except.error RouteError.alreadySigned := by
        simp [signByToken, hfind, hst]
      rw [hv] at h
      injection h with h2
      exact h2.symm
    · rw [signByToken_ok s token meta sig hfind hst] at h
      simp at h

theorem signByToken_second_call (s : Store) (token : String) (meta meta2 : SignMeta)
    (sig : DocumentSignature) (hfind : s.getSignatureByToken token = some sig)
    (hstat : ¬sig.status = SigStatus.signed) :
    (signByToken (signByToken s token meta).1 token meta2).2
        = Except.error RouteError.alreadySigned
    ∧ (signByToken (signByToken s token meta).1 token meta2).1
        = (signByToken s token meta).1 := by
  have hrow := signByToken_stored_row s token meta sig hfind hstat
  have hrowstat : (applySignatureUpdate sig (signUpdate meta)).status = SigStatus.signed := rfl
  constructor
  · generalize hgen : (signByToken s token meta).1 = s2 at hrow ⊢
    simp [signByToken, hrow, hrowstat]
  · generalize hgen : (signByToken s token meta).1 = s2 at hrow ⊢
    simp [signByToken, hrow, hrowstat]

/-- C3: signByToken errors exactly on an unknown token (not found) or an
already signed signature; every error path leaves the store untouched and
every error is one of those two kinds; and after a successful sign a
repeat call with the same token is rejected as already signed without
changing the store again. -/
theorem C3_signByToken_errors (s : Store) (token : String) (meta meta2 : SignMeta) :
    ((signByToken s token meta).2 = Except.error RouteError.notFound
        ↔ s.getSignatureByToken token = none)
    ∧ ((signByToken s token meta).2 = Except.error RouteError.alreadySigned
        ↔ ∃ sig, s.getSignatureByToken token = some sig ∧ sig.status = SigStatus.signed)
    ∧ (∀ e, (signByToken s token meta).2 = Except.error e
        → (signByToken s token meta).1 = s
          ∧ (e = RouteError.notFound ∨ e = RouteError.alreadySigned))
    ∧ (∀ sig, s.getSignatureByToken token = some sig → ¬sig.status = SigStatus.signed
        → (signByToken (signByToken s token meta).1 token meta2).2
              = Except.error RouteError.alreadySigned
          ∧ (signByToken (signByToken s token meta).1 token meta2).1
              = (signByToken s token meta).1) :=
  ⟨signByToken_err_notFound_iff s token meta,
   signByToken_err_already_iff s token meta,
   fun e he => signByToken_err_state s token meta e he,
   fun sig hs hn => signByToken_second_call s token meta meta2 sig hs hn⟩

/-- C3 witness: on the fixture store a repeat sign with the consumed token
tok1 is rejected as already signed and leaves the store unchanged. -/
theorem C3_witness :
    (signByToken (signByToken wStore "tok1" wMeta).1 "tok1" wMeta2).2
        = Except.error RouteError.alreadySigned
    ∧ (signByToken (signByToken wStore "tok1" wMeta).1 "tok1" wMeta2).1
        = (signByToken wStore "tok1" wMeta).1 :=
  (C3_signByToken_errors wStore "tok1" wMeta wMeta2).2.2.2 wSigSent (by decide) (by decide)

/-- Applying the sign update writes status and timestamp only: the
ipAddress and userAgent keys match no document_signatures column. -/
theorem applySignatureUpdate_signUpdate (g : DocumentSignature) (m : SignMeta) :
    applySignatureUpdate g (signUpdate m)
      = { g with status := SigStatus.signed, signedAt := some m.now } := rfl

/-- updateSignature with the sign update depends only on the timestamp of
the request metadata, not on its IP or user-agent. -/
theorem updateSignature_signUpdate_congr (s : Store) (id : String) (m m2 : SignMeta)
    (hnow : m.now = m2.now) :
    s.updateSignature id (signUpdate m) = s.updateSignature id (signUpdate m2) := by
  have happ : ∀ g : DocumentSignature,
      applySignatureUpdate g (signUpdate m) = applySignatureUpdate g (signUpdate m2) := by
    intro g
    rw [applySignatureUpdate_signUpdate, applySignatureUpdate_signUpdate, hnow]
  unfold Store.updateSignature
  have h1 : s.signatures.map (fun g => if g.id == id then applySignatureUpdate g (signUpdate m) else g)
      = s.signatures.map (fun g => if g.id == id then applySignatureUpdate g (signUpdate m2) else g) :=
    List.map_congr_left (fun g _ => by by_cases hg : (g.id == id) = true <;> simp [hg, happ g])
  have h2 : (s.signatures.find? (fun g => g.id == id)).map
        (fun g => applySignatureUpdate g (signUpdate m))
      = (s.signatures.find? (fun g => g.id == id)).map
        (fun g => applySignatureUpdate g (signUpdate m2)) := by
    cases s.signatures.find? (fun g => g.id == id) <;> simp [happ]
  rw [h1, h2]

/-- The whole sign route depends on the request metadata only through the
timestamp: two requests differing in IP and user-agent behave identically
because nothing of either is stored. -/
theorem signByToken_ip_ua_irrelevant (s : Store) (token : String) (m m2 : SignMeta)
    (hnow : m.now = m2.now) :
    signByToken s token m = signByToken s token m2 := by
  cases hfind : s.getSignatureByToken token with
  | none => simp [signByToken, hfind]
  | some sig =>
    by_cases hst : sig.status = SigStatus.signed
    · simp [signByToken, hfind, hst]
    · unfold signByToken
      rw [hfind]
      simp only [if_neg hst]
      rw [updateSignature_signUpdate_congr s sig.id m m2 hnow,
        applySignatureUpdate_signUpdate, applySignatureUpdate_signUpdate, hnow]

/-- C4 counterexample: a successful sign stores and returns the matched
row with only status signed and the timestamp; the requester IP and
user-agent appear nowhere, and two sign calls differing only in IP and
user-agent produce identical stores and identical responses. -/
theorem C4_counterexample :
    (signByToken wStore "tok1" wMeta).2
        = Except.ok { wSigSent with status := SigStatus.signed, signedAt := some 42 }
    ∧ signByToken wStore "tok1" wMeta
        = signByToken wStore "tok1" ⟨42, some "9.9.9.9", some "other"⟩ := by decide

/-- C4 amended: a successful sign responds with, and stores, the matched
signature marked signed and carrying the signing timestamp; the requester
IP and user-agent handed to updateSignature match no column of
document_signatures, are dropped, and leave the outcome unchanged. -/
theorem C4_signByToken_success (s : Store) (token : String) (meta : SignMeta)
    (sig : DocumentSignature) (hfind : s.getSignatureByToken token = some sig)
    (hstat : ¬sig.status = SigStatus.signed) :
    (signByToken s token meta).2
        = Except.ok { sig with status := SigStatus.signed, signedAt := some meta.now }
    ∧ (signByToken s token meta).1.getSignatureByToken token
        = some { sig with status := SigStatus.signed, signedAt := some meta.now }
    ∧ (∀ ip2 ua2, signByToken s token ⟨meta.now, ip2, ua2⟩ = signByToken s token meta) := by
  have hshape : applySignatureUpdate sig (signUpdate meta)
      = { sig with status := SigStatus.signed, signedAt := some meta.now } :=
    applySignatureUpdate_signUpdate sig meta
  exact ⟨hshape ▸ signByToken_ok s token meta sig hfind hstat,
    hshape ▸ signByToken_stored_row s token meta sig hfind hstat,
    fun ip2 ua2 => signByToken_ip_ua_irrelevant s token ⟨meta.now, ip2, ua2⟩ meta rfl⟩

/-- C4 witness: signing tok1 on the fixture store marks g1 signed with
timestamp 42, stores nothing else, and a request with another IP and
user-agent gives the identical outcome. -/
theorem C4_witness :
    (signByToken wStore "tok1" wMeta).2
        = Except.ok { wSigSent with status := SigStatus.signed, signedAt := some 42 }
    ∧ (signByToken wStore "tok1" wMeta).1.getSignatureByToken "tok1"
        = some { wSigSent with status := SigStatus.signed, signedAt := some 42 }
    ∧ signByToken wStore "tok1" ⟨42, some "8.8.8.8", some "ua2"⟩
        = signByToken wStore "tok1" wMeta :=
  have T := C4_signByToken_success wStore "tok1" wMeta wSigSent (by decide) (by decide)
  ⟨T.1, T.2.1, T.2.2 (some "8.8.8.8") (some "ua2")⟩

/-- A document is in an advanced status (signing or active) in a store. -/
def docAdvanced (s : Store) (docId : String) : Bool :=
  match s.getDocumentById docId with
  | some d => d.status == DocStatus.signing || d.status == DocStatus.active
  | none => false

/-- C2 counterexample: the status of a document does regress under the
defined operations: the validate endpoint, given a document that is
already active and a parseable valid reply, writes status validating with
no guard on the current status. -/
theorem C2_counterexample :
    wDocActive.status = DocStatus.active
    ∧ (((validateDocumentRoute ⟨[], [wDocActive], [], []⟩ ⟨"u1"⟩ "d2"
          (some ⟨true, [], []⟩)).1.getDocumentById "d2").map Document.status
        = some DocStatus.validating) := by decide

/-- C2 amended: restricted to the operations that do not write a
caller-chosen or validation-driven status (createDocument, sendForSignature
and signByToken), a document in status signing or active stays in signing
or active; validateDocument and updateDocument can regress it, per the
counterexample. -/
theorem C2_no_regression_restricted (s : Store) (docId : String)
    (h : docAdvanced s docId = true) :
    (∀ (u : AuthUser) (id : String) (signers : Option (List Signer)) (env : SigEnv)
        (cfg : Bool),
        docAdvanced (sendForSignatureRoute s u id signers env cfg).1 docId = true)
    ∧ (∀ (token : String) (meta : SignMeta),
        docAdvanced (signByToken s token meta).1 docId = true)
    ∧ (∀ (u : AuthUser) (input : DocumentInput) (env : DocEnv),
        docAdvanced (createDocumentRoute s u input env).1 docId = true) := by
  have hex : ∃ d, s.getDocumentById docId = some d
      ∧ (d.status = DocStatus.signing ∨ d.status = DocStatus.active) := by
    unfold docAdvanced at h
    cases hd : s.getDocumentById docId with
    | none => rw [hd] at h; simp at h
    | some d =>
      rw [hd] at h
      refine ⟨d, rfl, ?_⟩
      cases hst : d.status <;> simp [hst] at h ⊢
  rcases hex with ⟨d, hd, hstatus⟩
  refine ⟨?_, ?_, ?_⟩
  · intro u id signers env cfg
    cases hdoc : s.getDocumentById id with
    | none =>
      have hs : (sendForSignatureRoute s u id signers env cfg).1 = s := by
        simp [sendForSignatureRoute, hdoc]
      rw [hs]; exact h
    | some doc =>
      cases signers with
      | none =>
        have hs : (sendForSignatureRoute s u id none env cfg).1 = s := by
          simp [sendForSignatureRoute, hdoc]
        rw [hs]; exact h
      | some l =>
        cases l with
        | nil =>
          have hs : (sendForSignatureRoute s u id (some []) env cfg).1
              = (s.updateDocument doc.id { status := some DocStatus.signing }).1 := by
            simp [sendForSignatureRoute, hdoc, createSignatureLoop_nil]
          unfold docAdvanced
          rw [hs, getDocumentById_updateDocument, hd]
          by_cases hbeq : (d.id == doc.id) = true
          · have heq : d.id = doc.id := by simpa using hbeq
            simp [heq, applyDocumentUpdate]
          · simp only [Option.map_some', hbeq, if_neg]
            simpa [docAdvanced, hd] using h
        | cons sg rest =>
          have hs : (sendForSignatureRoute s u id (some (sg :: rest)) env cfg).1 = s := by
            simp [sendForSignatureRoute, hdoc, createSignatureLoop_cons]
          rw [hs]
          exact h
  · intro token meta
    cases hfind : s.getSignatureByToken token with
    | none =>
      have hs : (signByToken s token meta).1 = s := by simp [signByToken, hfind]
      rw [hs]; exact h
    | some sig =>
      by_cases hst : sig.status = SigStatus.signed
      · have hs : (signByToken s token meta).1 = s := by simp [signByToken, hfind, hst]
        rw [hs]; exact h
      · rw [signByToken_store s token meta sig hfind hst]
        by_cases hall : ((s.updateSignature sig.id (signUpdate meta)).1.getSignaturesByDocumentId
            sig.documentId).all (fun g => g.status == SigStatus.signed) = true
        · rw [if_pos hall]
          unfold docAdvanced
          rw [getDocumentById_updateDocument]
          have hdocs : (s.updateSignature sig.id (signUpdate meta)).1.getDocumentById docId
              = s.getDocumentById docId := by
            unfold Store.getDocumentById
            rw [updateSignature_documents]
          rw [hdocs, hd]
          by_cases hbeq : (d.id == sig.documentId) = true
          · have heq : d.id = sig.documentId := by simpa using hbeq
            simp [heq, applyDocumentUpdate]
          · simp only [Option.map_some', hbeq, if_neg]
            simpa [docAdvanced, hd] using h
        · rw [if_neg hall]
          unfold docAdvanced
          have hdocs : (s.updateSignature sig.id (signUpdate meta)).1.getDocumentById docId
              = s.getDocumentById docId := by
            unfold Store.getDocumentById
            rw [updateSignature_documents]
          rw [hdocs, hd]
          simpa [docAdvanced, hd] using h
  · intro u input env
    cases hc : s.getCompanyByUserId u.id with
    | none =>
      have hs : (createDocumentRoute s u input env).1 = s := by
        simp [createDocumentRoute, hc]
      rw [hs]; exact h
    | some c =>
      unfold docAdvanced
      have hs : (createDocumentRoute s u input env).1
          = s.createDocument
              { id := env.freshDocId
                companyId := c.id
                type := input.type
                title := input.title
                status := DocStatus.drafting
                content := input.content } := by
        simp [createDocumentRoute, hc]
      rw [hs, getDocumentById_createDocument, hd]
      simpa [docAdvanced, hd, Option.or] using h

/-- C2 witness: on the fixture store the active document d2 is still
advanced after signing token tok1. -/
theorem C2_witness : docAdvanced (signByToken wStore "tok1" wMeta).1 "d2" = true :=
  (C2_no_regression_restricted wStore "d2" (by decide)).2.1 "tok1" wMeta

/-- An update keyed on the investor id leaves investor ids unchanged. -/
theorem updateInvestorKeep_id (id : String) (u : InvestorUpdate) (x : Investor) :
    (if x.id == id then applyInvestorUpdate x u else x).id = x.id := by
  by_cases hx : x.id == id <;> simp [hx, applyInvestorUpdate]

/-- Reading an investor after updateInvestor. -/
theorem getInvestorById_updateInvestor (s : Store) (id invId : String) (u : InvestorUpdate) :
    ((s.updateInvestor id u).1.getInvestorById invId)
      = (s.getInvestorById invId).map
          (fun i => if i.id == id then applyInvestorUpdate i u else i) := by
  unfold Store.updateInvestor Store.getInvestorById
  exact find?_map_of_pred_eq _ _ _ (fun x => by rw [updateInvestorKeep_id])

/-- updateInvestor does not touch the documents table. -/
theorem updateInvestor_documents (s : Store) (id : String) (u : InvestorUpdate) :
    (s.updateInvestor id u).1.documents = s.documents := rfl

/-- createInvestor does not touch the documents table. -/
theorem createInvestor_documents (s : Store) (i : Investor) :
    (s.createInvestor i).documents = s.documents := rfl

/-- createDocument does not touch the investors table. -/
theorem createDocument_investors (s : Store) (d : Document) :
    (s.createDocument d).investors = s.investors := rfl

/-- C5 counterexample: the investor returned by POST /api/investors is the
row captured before the SAFE patch, so a successful call responds with a
null safeDocumentId even though the draft succeeded. -/
theorem C5_counterexample :
    ((addInvestorRoute ⟨[wCompany], [], [], []⟩ ⟨"u1"⟩ ⟨"jane@x.com", "Jane", some 50000⟩
        ⟨"i1", "d9", "safe text"⟩).2).map Investor.safeDocumentId
      = Except.ok none := by decide

/-- C5 amended: a successful addInvestor responds with an investor at
status pending whose safeDocumentId is null (the pre-patch row); the
stored investor row is patched with the id of the newly created SAFE
document, which has type safe and status drafting. -/
theorem C5_addInvestor (s : Store) (u : AuthUser) (input : InvestorInput)
    (env : InvestorEnv) (company : Company)
    (hc : s.getCompanyByUserId u.id = some company)
    (hfreshInv : ∀ i ∈ s.investors, ¬i.id = env.freshInvestorId)
    (hfreshDoc : ∀ d ∈ s.documents, ¬d.id = env.freshDocId) :
    (addInvestorRoute s u input env).2
        = Except.ok
            { id := env.freshInvestorId
              companyId := company.id
              email := input.email
              name := input.name
              amount := input.amount
              safeDocumentId := none
              status := SigStatus.pending }
    ∧ (addInvestorRoute s u input env).1.getInvestorById env.freshInvestorId
        = some
            { id := env.freshInvestorId
              companyId := company.id
              email := input.email
              name := input.name
              amount := input.amount
              safeDocumentId := some env.freshDocId
              status := SigStatus.pending }
    ∧ (addInvestorRoute s u input env).1.getDocumentById env.freshDocId
        = some
            { id := env.freshDocId
              companyId := company.id
              type := DocType.safe
              title := "SAFE - " ++ input.name
              status := DocStatus.drafting
              content := some env.safeContent } := by
  have hroute : addInvestorRoute s u input env
      = ((((s.createInvestor
              { id := env.freshInvestorId
                companyId := company.id
                email := input.email
                name := input.name
                amount := input.amount
                safeDocumentId := none
                status := SigStatus.pending }).createDocument
              { id := env.freshDocId
                companyId := company.id
                type := DocType.safe
                title := "SAFE - " ++ input.name
                status := DocStatus.drafting
                content := some env.safeContent }).updateInvestor env.freshInvestorId
            { safeDocumentId := some (some env.freshDocId) }).1,
         Except.ok
            { id := env.freshInvestorId
              companyId := company.id
              email := input.email
              name := input.name
              amount := input.amount
              safeDocumentId := none
              status := SigStatus.pending }) := by
    simp [addInvestorRoute, hc]
  refine ⟨by rw [hroute], ?_, ?_⟩
  · rw [hroute]
    rw [getInvestorById_updateInvestor]
    have hinvs : ∀ t : Store, t.investors = s.investors ++
        [{ id := env.freshInvestorId
           companyId := company.id
           email := input.email
           name := input.name
           amount := input.amount
           safeDocumentId := none
           status := SigStatus.pending }] →
        t.getInvestorById env.freshInvestorId
          = some
              { id := env.freshInvestorId
                companyId := company.id
                email := input.email
                name := input.name
                amount := input.amount
                safeDocumentId := none
                status := SigStatus.pending } := by
      intro t ht
      unfold Store.getInvestorById
      rw [ht, List.find?_append]
      have hnone : s.investors.find? (fun i => i.id == env.freshInvestorId) = none :=
        List.find?_eq_none.mpr (fun i hi => by simp [hfreshInv i hi])
      rw [hnone]
      simp [List.find?]
    rw [hinvs _ rfl]
    simp [applyInvestorUpdate]
  · rw [hroute]
    have hdocs : (((s.createInvestor
        { id := env.freshInvestorId
          companyId := company.id
          email := input.email
          name := input.name
          amount := input.amount
          safeDocumentId := none
          status := SigStatus.pending }).createDocument
        { id := env.freshDocId
          companyId := company.id
          type := DocType.safe
          title := "SAFE - " ++ input.name
          status := DocStatus.drafting
          content := some env.safeContent }).updateInvestor env.freshInvestorId
        { safeDocumentId := some (some env.freshDocId) }).1.documents
        = s.documents ++
          [{ id := env.freshDocId
             companyId := company.id
             type := DocType.safe
             title := "SAFE - " ++ input.name
             status := DocStatus.drafting
             content := some env.safeContent }] := rfl
    unfold Store.getDocumentById
    rw [hdocs, List.find?_append]
    have hnone : s.documents.find? (fun d => d.id == env.freshDocId) = none :=
      List.find?_eq_none.mpr (fun d hd => by simp [hfreshDoc d hd])
    rw [hnone]
    simp [List.find?]

/-- C5 witness: adding Jane as an investor on a one-company store responds
with a pending investor with null safeDocumentId, while the stored row is
patched to reference the drafted SAFE document d9. -/
theorem C5_witness :
    (addInvestorRoute ⟨[wCompany], [], [], []⟩ ⟨"u1"⟩ ⟨"jane@x.com", "Jane", some 50000⟩
        ⟨"i1", "d9", "safe text"⟩).2
        = Except.ok
            { id := "i1"
              companyId := "c1"
              email := "jane@x.com"
              name := "Jane"
              amount := some 50000
              safeDocumentId := none
              status := SigStatus.pending }
    ∧ (addInvestorRoute ⟨[wCompany], [], [], []⟩ ⟨"u1"⟩ ⟨"jane@x.com", "Jane", some 50000⟩
        ⟨"i1", "d9", "safe text"⟩).1.getInvestorById "i1"
        = some
            { id := "i1"
              companyId := "c1"
              email := "jane@x.com"
              name := "Jane"
              amount := some 50000
              safeDocumentId := some "d9"
              status := SigStatus.pending }
    ∧ (addInvestorRoute ⟨[wCompany], [], [], []⟩ ⟨"u1"⟩ ⟨"jane@x.com", "Jane", some 50000⟩
        ⟨"i1", "d9", "safe text"⟩).1.getDocumentById "d9"
        = some
            { id := "d9"
              companyId := "c1"
              type := DocType.safe
              title := "SAFE - " ++ "Jane"
              status := DocStatus.drafting
              content := some "safe text" } :=
  C5_addInvestor ⟨[wCompany], [], [], []⟩ ⟨"u1"⟩ ⟨"jane@x.com", "Jane", some 50000⟩
    ⟨"i1", "d9", "safe text"⟩ wCompany (by decide) (by decide) (by decide)

/-- Concrete fixture: a second company owned by a different user. -/
def wCompany2 : Company := ⟨"c2", "u2", "Globex", "france"⟩

/-- Concrete fixture store holding two tenants, with document d1 owned by
company c1 only. -/
def wStore2 : Store := ⟨[wCompany, wCompany2], [wDocDraft], [wSigSent], []⟩

/-- Concrete fresh-value environment for send-for-signature calls. -/
def wEnv : SigEnv := ⟨fun k => String.append "sid" (toString k), fun k => String.append "stok" (toString k)⟩

/-- C8 counterexample: send-for-signature does not succeed even for the
owning caller: with a non-empty signers list the first signature insert
violates the notNull signer_id and signer_type columns and the route
responds 500, so the claim that all five by-id operations succeed fails on
this one. -/
theorem C8_counterexample :
    (sendForSignatureRoute wStore2 ⟨"u1"⟩ "d1" (some [⟨"x@x.com", "X"⟩]) wEnv false).2.2
      = Except.error RouteError.serverError := by decide

/-- C8 amended: the document-by-id routes perform no ownership check: for
a caller whose company does not own the document, fetch, update, validate
and list-signatures succeed, and the list-by-company route excludes the
document; send-for-signature also ignores the caller entirely, but it
succeeds only for an empty signers array and fails 500 for any non-empty
one (for owner and stranger alike), because its insert violates the
notNull signer columns. -/
theorem C8_no_ownership_check (s : Store) (u : AuthUser) (docId : String)
    (d : Document) (c : Company)
    (hd : s.getDocumentById docId = some d)
    (hc : s.getCompanyByUserId u.id = some c)
    (hforeign : ¬d.companyId = c.id) :
    getDocumentRoute s u docId = Except.ok d
    ∧ (∀ body, (updateDocumentRoute s u docId body).2 = some (applyDocumentUpdate d body))
    ∧ (∀ parsed, (validateDocumentRoute s u docId parsed).2
        = Except.ok (validateDocumentService d.type (d.content.getD "") parsed))
    ∧ getSignaturesRoute s u docId = Except.ok (s.getSignaturesByDocumentId docId)
    ∧ (∀ l, getDocumentsRoute s u = Except.ok l → ¬d ∈ l)
    ∧ (∀ signers env cfg (u2 : AuthUser),
        sendForSignatureRoute s u docId signers env cfg
          = sendForSignatureRoute s u2 docId signers env cfg)
    ∧ (∀ env cfg, (sendForSignatureRoute s u docId (some []) env cfg).2.2
        = Except.ok "Signature requests sent successfully")
    ∧ (∀ sg rest env cfg,
        (sendForSignatureRoute s u docId (some (sg :: rest)) env cfg).2.2
          = Except.error RouteError.serverError) := by
  have hd' : s.documents.find? (fun x => x.id == docId) = some d := hd
  refine ⟨?_, ?_, ?_, ?_, ?_, ?_, ?_, ?_⟩
  · simp [getDocumentRoute, hd]
  · intro body
    simp [updateDocumentRoute, Store.updateDocument, hd']
  · intro parsed
    cases hv : (validateDocumentService d.type (d.content.getD "") parsed).valid <;>
      simp [validateDocumentRoute, hd, hv]
  · rfl
  · intro l hl hmem
    simp only [getDocumentsRoute, hc, Except.ok.injEq] at hl
    rw [← hl] at hmem
    have := (List.mem_filter.mp hmem).2
    exact hforeign (by simpa using this)
  · intro signers env cfg u2
    rfl
  · intro env cfg
    simp [sendForSignatureRoute, hd, createSignatureLoop_nil]
  · intro sg rest env cfg
    simp [sendForSignatureRoute, hd, createSignatureLoop_cons]

/-- C8 witness: user u2 of company c2 can fetch, update and validate the
foreign document d1 of company c1 and list its signatures; the
list-by-company route omits d1; and send-for-signature behaves for u2
exactly as for the owner, succeeding on an empty signers array and
failing 500 on a non-empty one. -/
theorem C8_witness :
    getDocumentRoute wStore2 ⟨"u2"⟩ "d1" = Except.ok wDocDraft
    ∧ (updateDocumentRoute wStore2 ⟨"u2"⟩ "d1" { title := some "hijacked" }).2
        = some (applyDocumentUpdate wDocDraft { title := some "hijacked" })
    ∧ (validateDocumentRoute wStore2 ⟨"u2"⟩ "d1" none).2
        = Except.ok (validateDocumentService wDocDraft.type (wDocDraft.content.getD "") none)
    ∧ getSignaturesRoute wStore2 ⟨"u2"⟩ "d1"
        = Except.ok (wStore2.getSignaturesByDocumentId "d1")
    ∧ ¬wDocDraft ∈ ([] : List Document)
    ∧ sendForSignatureRoute wStore2 ⟨"u2"⟩ "d1" (some [⟨"x@x.com", "X"⟩]) wEnv false
        = sendForSignatureRoute wStore2 ⟨"u1"⟩ "d1" (some [⟨"x@x.com", "X"⟩]) wEnv false
    ∧ (sendForSignatureRoute wStore2 ⟨"u2"⟩ "d1" (some []) wEnv false).2.2
        = Except.ok "Signature requests sent successfully"
    ∧ (sendForSignatureRoute wStore2 ⟨"u2"⟩ "d1" (some [⟨"x@x.com", "X"⟩]) wEnv false).2.2
        = Except.error RouteError.serverError :=
  have T := C8_no_ownership_check wStore2 ⟨"u2"⟩ "d1" wDocDraft wCompany2
    (by decide) (by decide) (by decide)
  ⟨T.1, T.2.1 { title := some "hijacked" }, T.2.2.1 none, T.2.2.2.1,
   T.2.2.2.2.1 [] (by decide),
   T.2.2.2.2.2.1 (some [⟨"x@x.com", "X"⟩]) wEnv false ⟨"u1"⟩,
   T.2.2.2.2.2.2.1 wEnv false,
   T.2.2.2.2.2.2.2 ⟨"x@x.com", "X"⟩ [] wEnv false⟩

/-- C9: an unparseable validation reply yields valid true with the single
warning, and the validate endpoint then advances the document to status
validating. -/
theorem C9_unparseable_validation (s : Store) (u : AuthUser) (id : String)
    (doc : Document) (hd : s.getDocumentById id = some doc) :
    validateDocumentService doc.type (doc.content.getD "") none
        = { valid := true, errors := [], warnings := ["Could not parse validation response"] }
    ∧ (validateDocumentRoute s u id none).2
        = Except.ok { valid := true, errors := [], warnings := ["Could not parse validation response"] }
    ∧ (validateDocumentRoute s u id none).1.getDocumentById doc.id
        = some { doc with status := DocStatus.validating } := by
  have hid : doc.id = id := getDocumentById_id hd
  refine ⟨rfl, by simp [validateDocumentRoute, hd, validateDocumentService], ?_⟩
  have hroute : (validateDocumentRoute s u id none).1
      = (s.updateDocument doc.id { status := some DocStatus.validating }).1 := by
    simp [validateDocumentRoute, hd, validateDocumentService]
  rw [hroute, getDocumentById_updateDocument, hid, hd]
  simp [hid, applyDocumentUpdate]

/-- C9 witness: validating document d1 with an unparseable model reply
reports the fallback result and moves d1 to status validating. -/
theorem C9_witness :
    validateDocumentService wDocDraft.type (wDocDraft.content.getD "") none
        = { valid := true, errors := [], warnings := ["Could not parse validation response"] }
    ∧ (validateDocumentRoute wStore ⟨"u1"⟩ "d1" none).2
        = Except.ok { valid := true, errors := [], warnings := ["Could not parse validation response"] }
    ∧ (validateDocumentRoute wStore ⟨"u1"⟩ "d1" none).1.getDocumentById "d1"
        = some { wDocDraft with status := DocStatus.validating } :=
  C9_unparseable_validation wStore ⟨"u1"⟩ "d1" wDocDraft (by decide)

/-- C10: the unconfigured notification service does return silently
without sending, but send-for-signature with any non-empty signers list
never reaches that point on a persisted row: its first insert omits the
notNull signer_id and signer_type columns of document_signatures, Postgres
rejects it, and the route responds 500 having persisted no signature,
changed no document status, sent no email and reported no success. -/
theorem C10_insert_failure (s : Store) (u : AuthUser) (id : String)
    (doc : Document) (sg : Signer) (rest : List Signer) (env : SigEnv) (cfg : Bool)
    (hd : s.getDocumentById id = some doc) :
    (∀ recipient recipientName title token : String,
        sendSignatureRequest false recipient recipientName title token = [])
    ∧ sendForSignatureRoute s u id (some (sg :: rest)) env cfg
        = (s, [], Except.error RouteError.serverError) := by
  refine ⟨fun recipient recipientName title token => rfl, ?_⟩
  simp [sendForSignatureRoute, hd, createSignatureLoop_cons]

/-- C10 witness: the unconfigured email service sends nothing, and sending
d1 for signature to one signer leaves the store untouched and responds
500 instead of persisting a sent signature and reporting success. -/
theorem C10_witness :
    sendSignatureRequest false "x@x.com" "X" "Mutual NDA" "stok0" = []
    ∧ sendForSignatureRoute wStore ⟨"u1"⟩ "d1" (some [⟨"x@x.com", "X"⟩]) wEnv false
        = (wStore, [], Except.error RouteError.serverError) :=
  have T := C10_insert_failure wStore ⟨"u1"⟩ "d1" wDocDraft ⟨"x@x.com", "X"⟩ [] wEnv false
    (by decide)
  ⟨T.1 "x@x.com" "X" "Mutual NDA" "stok0", T.2⟩

/-- C6: every point returned by the retrieval search carries the querying
company id in its payload, because of the mandatory tenant filter, so a
query scoped to company A never returns content indexed under another
company B. -/
theorem C6_tenant_isolation (available : Bool) (idx : QdrantIndex)
    (companyId otherId query : String) (limit : Nat) (score : QdrantPoint → Nat)
    (p : QdrantPoint) (hmem : p ∈ qdrantSearch available idx companyId query limit score) :
    p.company_id = companyId ∧ (¬otherId = companyId → ¬p.company_id = otherId) := by
  have hcid : p.company_id = companyId := by
    unfold qdrantSearch at hmem
    by_cases hav : available = true
    · rw [if_pos hav] at hmem
      have h1 := List.take_subset _ _ hmem
      have h2 := List.mem_mergeSort.mp h1
      have h3 := (List.mem_filter.mp h2).2
      simpa using h3
    · rw [if_neg hav] at hmem
      simp at hmem
  exact ⟨hcid, fun hne hother => hne (hother.symm.trans hcid)⟩

/-- Concrete fixture index holding one point for each of two tenants. -/
def wIdx : QdrantIndex := ⟨[⟨"doc_d1", "c1", "alpha"⟩, ⟨"doc_d2", "c2", "beta"⟩]⟩

/-- C6 witness: the point returned for a c1 query on the two-tenant index
carries company id c1 and is not c2 content. -/
theorem C6_witness :
    (⟨"doc_d1", "c1", "alpha"⟩ : QdrantPoint).company_id = "c1"
    ∧ (¬"c2" = "c1" → ¬(⟨"doc_d1", "c1", "alpha"⟩ : QdrantPoint).company_id = "c2") :=
  C6_tenant_isolation true wIdx "c1" "c2" "question" 3 (fun _ => 0)
    ⟨"doc_d1", "c1", "alpha"⟩ (by simp [qdrantSearch, wIdx, List.mergeSort_singleton])

/-- Every pRetry run invokes the operation at least once. -/
theorem pRetryGo_attempts_pos (o : RetryOptions) (op : Nat → Except String String)
    (a r : Nat) : 1 ≤ (pRetryGo o op a r).attemptsMade := by
  cases r with
  | zero => cases hop : op a <;> simp [pRetryGo, hop]
  | succ r =>
    cases hop : op a with
    | ok v => simp [pRetryGo, hop]
    | error e =>
      by_cases hRL : isRateLimitError e = true <;> simp [pRetryGo, hop, hRL]

/-- A pRetry run with r retries left makes at most r + 1 attempts. -/
theorem pRetryGo_attempts_le (o : RetryOptions) (op : Nat → Except String String)
    (r : Nat) : ∀ a, (pRetryGo o op a r).attemptsMade ≤ r + 1 := by
  induction r with
  | zero => intro a; cases hop : op a <;> simp [pRetryGo, hop]
  | succ r ih =>
    intro a
    cases hop : op a with
    | ok v => simp [pRetryGo, hop]
    | error e =>
      by_cases hRL : isRateLimitError e = true
      · simp only [pRetryGo, hop, hRL, if_pos]
        have := ih (a + 1)
        omega
      · simp [pRetryGo, hop, hRL]

/-- The delays slept by a pRetry run are exactly the backoff schedule for
the attempts that failed and were retried. -/
theorem pRetryGo_delays (o : RetryOptions) (op : Nat → Except String String)
    (r : Nat) : ∀ a, (pRetryGo o op a r).delays
      = (List.range ((pRetryGo o op a r).attemptsMade - 1)).map
          (fun n => retryDelay o (a + n)) := by
  induction r with
  | zero => intro a; cases hop : op a <;> simp [pRetryGo, hop]
  | succ r ih =>
    intro a
    cases hop : op a with
    | ok v => simp [pRetryGo, hop]
    | error e =>
      by_cases hRL : isRateLimitError e = true
      · simp only [pRetryGo, hop, hRL, if_pos]
        have hpos := pRetryGo_attempts_pos o op (a + 1) r
        have hm : (pRetryGo o op (a + 1) r).attemptsMade + 1 - 1
            = ((pRetryGo o op (a + 1) r).attemptsMade - 1) + 1 := by omega
        rw [hm, List.range_succ_eq_map, List.map_cons, List.map_map]
        have harith : ∀ n : Nat, a + (n + 1) = (a + 1) + n := by omega
        congr 1
        rw [ih (a + 1)]
        apply List.map_congr_left
        intro n _
        simp [Function.comp, harith n]
      · simp [pRetryGo, hop, hRL]

/-- Every attempt that was followed by a retry failed with a rate-limit
error. -/
theorem pRetryGo_retry_only_rateLimit (o : RetryOptions) (op : Nat → Except String String)
    (r : Nat) : ∀ a i, i + 1 < (pRetryGo o op a r).attemptsMade
      → ∃ e, op (a + i) = Except.error e ∧ isRateLimitError e = true := by
  induction r with
  | zero =>
    intro a i hi
    cases hop : op a <;> simp [pRetryGo, hop] at hi
  | succ r ih =>
    intro a i hi
    cases hop : op a with
    | ok v => simp [pRetryGo, hop] at hi
    | error e =>
      by_cases hRL : isRateLimitError e = true
      · simp only [pRetryGo, hop, hRL, if_pos] at hi
        cases i with
        | zero => exact ⟨e, by simpa using hop, hRL⟩
        | succ i =>
          have hlt : i + 1 < (pRetryGo o op (a + 1) r).attemptsMade := by omega
          have harith : a + (i + 1) = (a + 1) + i := by omega
          rw [harith]
          exact ih (a + 1) i hlt
      · simp [pRetryGo, hop, hRL] at hi

/-- A non-rate-limit error aborts a pRetry run at once, whatever retry
budget remains. -/
theorem pRetryGo_abort (o : RetryOptions) (op : Nat → Except String String)
    (r a : Nat) (e : String) (hop : op a = Except.error e)
    (hRL : isRateLimitError e = false) :
    pRetryGo o op a r = ⟨1, [], Except.error e⟩ := by
  cases r <;> simp [pRetryGo, hop, hRL]

/-- The backoff schedule of the gemini.ts options is the doubling list
capped at 128000. -/
theorem range_map_retryDelay (k : Nat) (hk : k ≤ 7) :
    (List.range k).map (fun n => retryDelay genRetryOptions n) = genDelays.take k := by
  interval_cases k <;> rfl

/-- C7 counterexample: with every attempt failing as a rate-limit error,
pRetry under the gemini.ts options invokes the operation 8 times (the
initial call plus 7 retries), not at most 7, sleeping the doubling
schedule 2s up to the 128s cap in between. -/
theorem C7_counterexample :
    isRateLimitError "429" = true
    ∧ (pRetryRun genRetryOptions (fun _ => Except.error "429")).attemptsMade = 8
    ∧ (pRetryRun genRetryOptions (fun _ => Except.error "429")).delays
        = [2000, 4000, 8000, 16000, 32000, 64000, 128000] := by decide

/-- C7 amended: every generation call retries only on rate-limit or quota
errors (messages containing 429, RATELIMIT_EXCEEDED, quota or rate limit),
making up to 8 attempts, that is the initial call plus up to 7 retries,
with backoff delays doubling from 2000 ms to the 128000 ms cap; any other
error aborts at once with a single attempt and no delay. -/
theorem C7_retry_policy :
    (∀ op, (pRetryRun genRetryOptions op).attemptsMade ≤ 8)
    ∧ (∀ op, (pRetryRun genRetryOptions op).delays
        = genDelays.take ((pRetryRun genRetryOptions op).attemptsMade - 1))
    ∧ (∀ op i, i + 1 < (pRetryRun genRetryOptions op).attemptsMade
        → ∃ e, op i = Except.error e ∧ isRateLimitError e = true)
    ∧ (∀ op e, op 0 = Except.error e → isRateLimitError e = false
        → pRetryRun genRetryOptions op = ⟨1, [], Except.error e⟩) := by
  have hrun : ∀ op : Nat → Except String String,
      pRetryRun genRetryOptions op = pRetryGo genRetryOptions op 0 7 := fun _ => rfl
  refine ⟨?_, ?_, ?_, ?_⟩
  · intro op
    rw [hrun]
    exact pRetryGo_attempts_le genRetryOptions op 7 0
  · intro op
    rw [hrun]
    rw [pRetryGo_delays genRetryOptions op 7 0]
    have hle : (pRetryGo genRetryOptions op 0 7).attemptsMade - 1 ≤ 7 := by
      have := pRetryGo_attempts_le genRetryOptions op 7 0
      omega
    rw [← range_map_retryDelay _ hle]
    apply List.map_congr_left
    intro n _
    simp
  · intro op i hi
    rw [hrun] at hi
    have := pRetryGo_retry_only_rateLimit genRetryOptions op 7 0 i hi
    simpa using this
  · intro op e hop hRL
    rw [hrun]
    exact pRetryGo_abort genRetryOptions op 7 0 e hop hRL

/-- C7 witness: a successful first call stays within the 8-attempt bound,
and a non-rate-limit failure aborts after exactly one attempt with no
backoff sleep. -/
theorem C7_witness :
    (pRetryRun genRetryOptions (fun _ => Except.ok "hello")).attemptsMade ≤ 8
    ∧ pRetryRun genRetryOptions (fun _ => Except.error "boom")
        = ⟨1, [], Except.error "boom"⟩ :=
  ⟨C7_retry_policy.1 (fun _ => Except.ok "hello"),
   C7_retry_policy.2.2.2 (fun _ => Except.error "boom") "boom" rfl (by decide)⟩

end CorpRun




